import Mathlib

/-!
# Verification of the YouTube MCP server core

A shallow embedding of the video-ID normalizer (`normalizeVideoId`), the
zod input schema (`videoIdSchema`), the bulk playlist mutator
(`addVideosToPlaylist` handler) and the client-side `clampMaxResults`
helper, translated from the TypeScript source, together with theorems
settling the specified properties.

Strings are modelled as `List Char` internally (Lean's `String` is a
structure over `List Char`), with `String`-level wrappers mirroring the
source signatures.
-/

namespace YT

/-- A character of the YouTube video-id alphabet `[A-Za-z0-9_-]`
(the character class of `YOUTUBE_VIDEO_ID_REGEX`). -/
def isIdChar (c : Char) : Bool :=
  ('A' ≤ c && c ≤ 'Z') || ('a' ≤ c && c ≤ 'z') || ('0' ≤ c && c ≤ '9') ||
    c = '_' || c = '-'

/-- `YOUTUBE_VIDEO_ID_REGEX = /^[A-Za-z0-9_-]{11}$/` on character lists:
exactly 11 characters, all from the id alphabet. -/
def isVideoIdChars (l : List Char) : Bool :=
  l.length = 11 && l.all isIdChar

/-- JavaScript `String.prototype.trim` whitespace class, restricted to the
ASCII whitespace characters (the inputs of interest contain no exotic
Unicode whitespace). -/
def isWSChar (c : Char) : Bool :=
  c = ' ' || c = '\t' || c = '\n' || c = '\r' || c = '\x0b' || c = '\x0c'

/-- `value.trim()`: remove leading and trailing whitespace. -/
def trimChars (l : List Char) : List Char :=
  ((l.dropWhile isWSChar).reverse.dropWhile isWSChar).reverse

/-- Split a list at the first occurrence of `c`, returning the parts
before and after it, or `none` when `c` does not occur. -/
def splitFirst (c : Char) : List Char → Option (List Char × List Char)
  | [] => none
  | x :: xs =>
    if x = c then some ([], xs)
    else
      match splitFirst c xs with
      | some (a, b) => some (x :: a, b)
      | none => none

/-- Split a list on every occurrence of `c` (like JS `String.split`). -/
def splitAll (c : Char) : List Char → List (List Char)
  | [] => [[]]
  | x :: xs =>
    let r := splitAll c xs
    if x = c then [] :: r
    else
      match r with
      | h :: t => (x :: h) :: t
      | [] => [[x]]

/-- Does `pre` occur at the head of `l`? -/
def startsWith : List Char → List Char → Bool
  | _, [] => true
  | [], _ :: _ => false
  | a :: as, b :: bs => a = b && startsWith as bs

/-- Does `pat` occur anywhere inside `l` (JS `String.prototype.includes`)? -/
def containsSeq (l pat : List Char) : Bool :=
  match l with
  | [] => startsWith [] pat
  | _ :: xs => startsWith l pat || containsSeq xs pat

/-- First char of a URL scheme: an ASCII letter. -/
def isSchemeStart (c : Char) : Bool :=
  ('A' ≤ c && c ≤ 'Z') || ('a' ≤ c && c ≤ 'z')

/-- Subsequent chars of a URL scheme: letter, digit, `+`, `-` or `.`. -/
def isSchemeChar (c : Char) : Bool :=
  isSchemeStart c || ('0' ≤ c && c ≤ '9') || c = '+' || c = '-' || c = '.'

/-- A valid URL scheme: nonempty, letter first, scheme chars after. -/
def validScheme : List Char → Bool
  | [] => false
  | c :: cs => isSchemeStart c && cs.all isSchemeChar

/-- ASCII-lowercase a character list (WHATWG hostname canonicalization for
the ASCII hosts appearing here). -/
def toLowerChars (l : List Char) : List Char :=
  l.map Char.toLower

/-- The parts of a parsed URL the normalizer reads: `hostname`, `pathname`
and the raw query string (text after `?`, when present). -/
structure URLParts where
  host : List Char
  path : List Char
  query : Option (List Char)
  deriving Repr, DecidableEq

/-- Strip a `#fragment` and split the remainder at the first `?` into
pathname and query. -/
def splitPathQuery (l : List Char) : List Char × Option (List Char) :=
  let noFrag := l.takeWhile (fun c => !(c = '#'))
  match splitFirst '?' noFrag with
  | some (p, q) => (p, some q)
  | none => (noFrag, none)

/-- Model of the WHATWG `new URL(value)` constructor, for the URL shapes
this program receives: a valid scheme followed by `://authority/path?query`
parses to host/path/query; a valid scheme followed by anything else parses
as an opaque-path URL with empty host; anything without a valid scheme
(no `:` at all, or a malformed scheme) throws, modelled as `none`.
Userinfo, ports, percent-decoding and non-ASCII host canonicalization are
not modelled: no input of interest contains them. -/
def parseURL (s : List Char) : Option URLParts :=
  match splitFirst ':' s with
  | none => none
  | some (scheme, rest) =>
    if validScheme scheme then
      match rest with
      | '/' :: '/' :: rest2 =>
        let auth := rest2.takeWhile (fun c => !(c = '/' || c = '?' || c = '#'))
        let tail := rest2.dropWhile (fun c => !(c = '/' || c = '?' || c = '#'))
        if auth.isEmpty then none
        else
          let (path, query) := splitPathQuery tail
          some ⟨toLowerChars auth, path, query⟩
      | _ =>
        let (path, query) := splitPathQuery rest
        some ⟨[], path, query⟩
    else none

/-- Look up the `v` key among `&`-separated `key=value` pairs
(`url.searchParams.get("v")`); a key without `=` maps to the empty value. -/
def findV : List (List Char) → Option (List Char)
  | [] => none
  | pair :: rest =>
    match splitFirst '=' pair with
    | some (k, v) => if k = ['v'] then some v else findV rest
    | none => if pair = ['v'] then some [] else findV rest

/-- `url.searchParams.get("v")` over the parsed query string. -/
def getParamV (query : Option (List Char)) : Option (List Char) :=
  match query with
  | none => none
  | some q => findV (splitAll '&' q)

/-- `url.pathname.split("/").filter(Boolean)`. -/
def pathSegments (path : List Char) : List (List Char) :=
  (splitAll '/' path).filter (fun s => !s.isEmpty)

/-- The `segments.length >= 2` checks of the host block: first segment
`embed` or `shorts` with an id-shaped second segment. -/
def embedShortsCheck : List (List Char) → Option (List Char)
  | s0 :: s1 :: _ =>
    if s0 = ['e', 'm', 'b', 'e', 'd'] && isVideoIdChars s1 then some s1
    else if s0 = ['s', 'h', 'o', 'r', 't', 's'] && isVideoIdChars s1 then some s1
    else none
  | _ => none

/-- The host-based extraction block of `normalizeVideoId` (the three
checks guarded by `url.hostname.includes("youtu")`): short-link host,
`embed/` path, `shorts/` path. Returns `none` when no check returns. -/
def hostBranch (u : URLParts) : Option (List Char) :=
  if containsSeq u.host ['y', 'o', 'u', 't', 'u'] then
    let segments := pathSegments u.path
    if u.host = ['y', 'o', 'u', 't', 'u', '.', 'b', 'e'] then
      match segments with
      | s0 :: _ => if isVideoIdChars s0 then some s0 else embedShortsCheck segments
      | [] => embedShortsCheck segments
    else embedShortsCheck segments
  else none

/-- The URL-parsing extraction step of `normalizeVideoId` (the body of the
`try` block): query parameter first, then the host-based checks. `none`
when the URL fails to parse or no check returns. -/
def urlStep (value : List Char) : Option (List Char) :=
  match parseURL value with
  | none => none
  | some url =>
    match getParamV url.query with
    | some q => if !q.isEmpty && isVideoIdChars q then some q else hostBranch url
    | none => hostBranch url

/-- Take exactly 11 id-alphabet characters from the head of `l`
(the capture group `([A-Za-z0-9_-]{11})`): `none` when fewer than 11
id characters are available at this position. -/
def take11Id (l : List Char) : Option (List Char) :=
  let pre := l.take 11
  if pre.length = 11 && pre.all isIdChar then some pre else none

/-- The fallback regex `/[?&]v=([A-Za-z0-9_-]{11})/`: scan left to right
for a `?` or `&` immediately followed by `v=` and 11 id characters;
return the first such capture (a failed match attempt at one position
resumes the scan at the next position, as the regex engine does). -/
def queryFallback : List Char → Option (List Char)
  | [] => none
  | c :: rest =>
    if (c = '?' || c = '&') && startsWith rest ['v', '='] then
      match take11Id (rest.drop 2) with
      | some idv => some idv
      | none => queryFallback rest
    else queryFallback rest

/-- The fallback regex `/embed\/([A-Za-z0-9_-]{11})/`: scan left to right
for the literal `embed/` followed by 11 id characters. -/
def embedFallback : List Char → Option (List Char)
  | [] => none
  | c :: rest =>
    if startsWith (c :: rest) ['e', 'm', 'b', 'e', 'd', '/'] then
      match take11Id ((c :: rest).drop 6) with
      | some idv => some idv
      | none => embedFallback rest
    else embedFallback rest

/-- `normalizeVideoId` on character lists, translated clause by clause
from the source: trim; return the trimmed value if it is already an id;
otherwise try URL-based extraction; otherwise the two fallback regexes;
otherwise return the trimmed value unchanged. -/
def normalizeChars (input : List Char) : List Char :=
  let value := trimChars input
  if isVideoIdChars value then value
  else
    match urlStep value with
    | some r => r
    | none =>
      match queryFallback value with
      | some r => r
      | none =>
        match embedFallback value with
        | some r => r
        | none => value

/-- `normalizeVideoId : string → string`, the source entry point. -/
def normalizeVideoId (input : String) : String :=
  ⟨normalizeChars input.data⟩

/-- `YOUTUBE_VIDEO_ID_REGEX.test` on strings. -/
def isVideoId (s : String) : Bool :=
  isVideoIdChars s.data

/-- `input.trim()` at string level. -/
def jsTrim (s : String) : String :=
  ⟨trimChars s.data⟩

/-- `videoIdSchema`: `z.string().min(1)` then the transform that
normalizes and rejects anything not matching the 11-character pattern
with the message from the source. -/
def videoIdSchema (s : String) : Except String String :=
  if s.length < 1 then .error "String must contain at least 1 character(s)"
  else
    let normalized := normalizeVideoId s
    if isVideoId normalized then .ok normalized
    else .error "Provide a valid YouTube video ID or URL."

/-- Element-wise validation of `z.array(videoIdSchema)`: the array parse
succeeds only when every element parses (zod reports the collected issues
as one failure of the whole parse; the model keeps the first message). -/
def validateAll : List String → Except String (List String)
  | [] => .ok []
  | s :: rest =>
    match videoIdSchema s with
    | .error e => .error e
    | .ok v =>
      match validateAll rest with
      | .error e => .error e
      | .ok vs => .ok (v :: vs)

/-- `z.array(videoIdSchema).min(1)`. -/
def videoIdsSchema (l : List String) : Except String (List String) :=
  if l.length < 1 then .error "Array must contain at least 1 element(s)"
  else validateAll l

/-- The fields of the provider's insert response that the handler reads
(`PlaylistItemSummary` restricted to the used fields). -/
structure InsertedItem where
  id : String
  playlistId : String
  position : Nat
  videoId : String
  title : String
  deriving Repr, DecidableEq

/-- The external `client.addVideoToPlaylist` primitive, as seen by one
batch: a (possibly stateful) service deciding, for the `i`-th call of the
batch with a given video id and optional position, either an inserted
item or an error message.  The call index models provider state. -/
def Provider : Type :=
  Nat → String → Option Nat → Except String InsertedItem

/-- One per-reference record of the batch report: the `✅ Added` line's
data on success, the `❌ Failed` line's data on failure. -/
inductive Outcome where
  | added (videoRef : String) (item : InsertedItem)
  | failed (videoRef : String) (message : String)
  deriving Repr, DecidableEq

/-- The reference a batch outcome entry is about. -/
def Outcome.videoRef : Outcome → String
  | .added v _ => v
  | .failed v _ => v

/-- Whether a batch outcome entry records a success. -/
def Outcome.isSuccess : Outcome → Bool
  | .added _ _ => true
  | .failed _ _ => false

/-- The line the handler pushes for an outcome, rendered exactly as in
the source (`item.title || videoId` falls back to the reference when the
title is empty). -/
def renderLine : Outcome → String
  | .added v item =>
    "✅ Added " ++ (if item.title.isEmpty then v else item.title) ++
      " (videoId=" ++ item.videoId ++ ") at position " ++
      toString item.position ++ "."
  | .failed v msg => "❌ Failed to add " ++ v ++ ": " ++ msg

/-- Observable steps of one batch: an insert attempt (with its call index,
reference and the position argument passed to the provider) or the fixed
pacing delay in milliseconds. -/
inductive BatchEvent where
  | attempt (index : Nat) (videoRef : String) (position : Option Nat)
  | delay (ms : Nat)
  deriving Repr, DecidableEq

/-- One iteration of the handler's `try`/`catch`: on success, the added
outcome and the advanced position (`currentPosition += 1` happens inside
the `try`, only when a position is being tracked); on failure, the failed
outcome with the caught message and the unchanged position. -/
def stepResult (provider : Provider) (i : Nat) (v : String) (cur : Option Nat) :
    Outcome × Option Nat :=
  match provider i v cur with
  | .ok item =>
    (Outcome.added v item,
      match cur with
      | some p => some (p + 1)
      | none => none)
  | .error msg => (Outcome.failed v msg, cur)

/-- The loop of the `addVideosToPlaylist` handler: for each reference,
attempt the insert at `currentPosition` (recorded in the trace), take the
step's outcome and next position, and between consecutive iterations
(`index < videoIds.length - 1`) wait 250 ms.  Returns the outcome list in
input order together with the event trace. -/
def addVideosLoop (provider : Provider) :
    Nat → Option Nat → List String → List Outcome × List BatchEvent
  | _, _, [] => ([], [])
  | i, cur, v :: rest =>
    let step := stepResult provider i v cur
    let tail := addVideosLoop provider (i + 1) step.2 rest
    let pacing : List BatchEvent := if rest.isEmpty then [] else [.delay 250]
    (step.1 :: tail.1, .attempt i v cur :: (pacing ++ tail.2))

/-- The `addVideosToPlaylist` handler applied to already-validated video
ids: runs the loop from index 0 at `startPosition`. -/
def addVideosHandler (provider : Provider) (videoIds : List String)
    (startPosition : Option Nat) : List Outcome × List BatchEvent :=
  addVideosLoop provider 0 startPosition videoIds

/-- The full `addVideosToPlaylist` tool call: the zod schema validates
`playlistId` (`min(1)`) and every entry of `videoIds` before the handler
runs; any schema failure rejects the whole call and the handler (hence
the provider) is never reached. -/
def addVideosToPlaylistTool (provider : Provider) (playlistId : String)
    (videoIds : List String) (startPosition : Option Nat) :
    Except String (List Outcome × List BatchEvent) :=
  if playlistId.length < 1 then
    .error "String must contain at least 1 character(s)"
  else
    match videoIdsSchema videoIds with
    | .error e => .error e
    | .ok ids => .ok (addVideosHandler provider ids startPosition)

/-- The rendered text of a completed batch, one line per reference. -/
def handlerText (outcomes : List Outcome) : String :=
  String.intercalate "\n" (outcomes.map renderLine)

/-- The position arguments of the insert attempts of a trace, in order. -/
def attemptPositions (evs : List BatchEvent) : List (Option Nat) :=
  evs.filterMap fun e =>
    match e with
    | .attempt _ _ p => some p
    | .delay _ => none

/-- The delay lengths of a trace, in order. -/
def delayLengths (evs : List BatchEvent) : List Nat :=
  evs.filterMap fun e =>
    match e with
    | .attempt _ _ _ => none
    | .delay ms => some ms

/-- Number of successful entries of an outcome list. -/
def successCount (outs : List Outcome) : Nat :=
  (outs.filter Outcome.isSuccess).length

/-- A trace projected to its rhythm: `0` for an attempt, the delay length
for a delay. -/
def traceShape (evs : List BatchEvent) : List Nat :=
  evs.map fun e =>
    match e with
    | .attempt _ _ _ => 0
    | .delay ms => ms

/-- The rhythm the pacing rule prescribes for `n` attempts: attempts
separated by single 250 ms delays, no delay after the last. -/
def expectedShape : Nat → List Nat
  | 0 => []
  | 1 => [0]
  | n + 2 => 0 :: 250 :: expectedShape (n + 1)

/-- A JavaScript `number` as the clamping code distinguishes them:
`NaN` or an exact value (the arguments of interest are exactly
representable, so value arithmetic is modelled on `ℚ`). -/
inductive JSNum where
  | nan
  | val (q : ℚ)
  deriving DecidableEq

/-- `clampMaxResults` from the client: absent, falsy (`0`) or `NaN`
arguments give the default 10; otherwise
`Math.min(Math.max(1, Math.floor(maxResults)), MAX_RESULTS_LIMIT)`
with `MAX_RESULTS_LIMIT = 50`. -/
def clampMaxResults (maxResults : Option JSNum) : Int :=
  match maxResults with
  | none => 10
  | some .nan => 10
  | some (.val q) => if q = 0 then 10 else min (max 1 ⌊q⌋) 50

/-- The request field `maxResults` that `searchVideos` sends to
`service.search.list`. -/
def searchVideosMaxResults (maxResults : Option JSNum) : Int :=
  clampMaxResults maxResults

/-- The request field `maxResults` that `listMyPlaylists` sends to
`service.playlists.list`. -/
def listMyPlaylistsMaxResults (maxResults : Option JSNum) : Int :=
  clampMaxResults maxResults

/-- The request field `maxResults` that `listPlaylistItems` sends to
`service.playlistItems.list`. -/
def listPlaylistItemsMaxResults (maxResults : Option JSNum) : Int :=
  clampMaxResults maxResults

/-- The request field `maxResults` that `listRelatedVideos` sends to
`service.search.list`. -/
def listRelatedVideosMaxResults (maxResults : Option JSNum) : Int :=
  clampMaxResults maxResults

/-- Stub insert primitive that always succeeds, echoing the requested
video id and position (position 0 when the batch tracks none). -/
def stubAlwaysOk : Provider := fun _ v pos =>
  .ok ⟨"it", "PL", pos.getD 0, v, "T"⟩

/-- Stub insert primitive that fails exactly on the second call of the
batch (index 1) and succeeds on every other call. -/
def stubFailSecond : Provider := fun i v pos =>
  if i = 1 then .error "boom" else .ok ⟨"it", "PL", pos.getD 0, v, "T"⟩

/-! ## Basic lemmas about the character-level machinery -/

lemma isVideoIdChars_iff {l : List Char} :
    isVideoIdChars l = true ↔ l.length = 11 ∧ l.all isIdChar = true := by
  simp [isVideoIdChars]

lemma isIdChar_ne {c d : Char} (h : isIdChar c = true) (hd : isIdChar d = false) :
    c ≠ d := by
  intro he
  rw [he, hd] at h
  exact Bool.false_ne_true h

lemma isIdChar_not_ws {c : Char} (h : isIdChar c = true) : isWSChar c = false := by
  cases hws : isWSChar c with
  | false => rfl
  | true =>
    exfalso
    simp only [isWSChar, Bool.or_eq_true, decide_eq_true_eq] at hws
    rcases hws with ((((h1 | h1) | h1) | h1) | h1) | h1 <;>
      subst h1 <;> exact absurd h (by decide)

lemma all_ne_of_all_id {l : List Char} (hl : l.all isIdChar = true) (d : Char)
    (hd : isIdChar d = false) : l.all (fun c => !(c = d)) = true := by
  rw [List.all_eq_true] at hl ⊢
  intro c hc
  simpa using isIdChar_ne (hl c hc) hd

lemma dropWhile_eq_self_of_all {p : Char → Bool} {l : List Char}
    (h : l.all (fun c => !p c) = true) : l.dropWhile p = l := by
  cases l with
  | nil => rfl
  | cons a t =>
    have ha : p a = false := by
      have := (List.all_eq_true.mp h) a (List.mem_cons_self a t)
      simpa using this
    rw [List.dropWhile_cons, ha]
    simp

lemma takeWhile_eq_self_of_all {p : Char → Bool} {l : List Char}
    (h : l.all p = true) : l.takeWhile p = l :=
  List.takeWhile_eq_self_iff.mpr (by simpa [List.all_eq_true] using h)

lemma takeWhile_append_of_all {p : Char → Bool} {a : List Char} (b : List Char)
    (h : a.all p = true) : (a ++ b).takeWhile p = a ++ b.takeWhile p := by
  induction a with
  | nil => rfl
  | cons x xs ih =>
    rw [List.all_cons, Bool.and_eq_true] at h
    simp [List.takeWhile_cons, h.1, ih h.2]

lemma trimChars_eq_self {l : List Char} (h : l.all (fun c => !isWSChar c) = true) :
    trimChars l = l := by
  unfold trimChars
  rw [dropWhile_eq_self_of_all h,
    dropWhile_eq_self_of_all (by rw [List.all_reverse]; exact h),
    List.reverse_reverse]

lemma trimChars_of_all_id {l : List Char} (h : l.all isIdChar = true) :
    trimChars l = l := by
  apply trimChars_eq_self
  rw [List.all_eq_true] at h ⊢
  intro c hc
  simpa using isIdChar_not_ws (h c hc)

lemma splitFirst_ne (c : Char) {l : List Char}
    (h : l.all (fun x => !(x = c)) = true) : splitFirst c l = none := by
  induction l with
  | nil => rfl
  | cons x xs ih =>
    rw [List.all_cons, Bool.and_eq_true] at h
    have hx : ¬(x = c) := by simpa using h.1
    rw [splitFirst, if_neg hx, ih h.2]

lemma splitAll_cons (c x : Char) (xs : List Char) :
    splitAll c (x :: xs) =
      if x = c then [] :: splitAll c xs
      else
        match splitAll c xs with
        | h :: t => (x :: h) :: t
        | [] => [[x]] := rfl

lemma splitAll_ne_nil (c : Char) (l : List Char) : splitAll c l ≠ [] := by
  cases l with
  | nil => simp [splitAll]
  | cons x xs =>
    rw [splitAll_cons]
    split
    · simp
    · split <;> simp

lemma splitAll_of_all_ne (c : Char) {l : List Char}
    (h : l.all (fun x => !(x = c)) = true) : splitAll c l = [l] := by
  induction l with
  | nil => rfl
  | cons x xs ih =>
    rw [List.all_cons, Bool.and_eq_true] at h
    have hx : ¬(x = c) := by simpa using h.1
    rw [splitAll_cons, if_neg hx, ih h.2]

lemma splitAll_append_of_all_ne (c : Char) {a : List Char} (b : List Char)
    (h : a.all (fun x => !(x = c)) = true) :
    splitAll c (a ++ b) = (a ++ (splitAll c b).headI) :: (splitAll c b).tail := by
  induction a with
  | nil =>
    obtain ⟨h0, t0, he⟩ := List.exists_cons_of_ne_nil (splitAll_ne_nil c b)
    simp [he]
  | cons x xs ih =>
    rw [List.all_cons, Bool.and_eq_true] at h
    have hx : ¬(x = c) := by simpa using h.1
    rw [List.cons_append, splitAll_cons, if_neg hx, ih h.2]
    rfl

lemma isEmpty_eq_false_of_length {l : List Char} (h : l.length = 11) :
    l.isEmpty = false := by
  cases l with
  | nil => simp at h
  | cons a t => rfl

lemma isVideoIdChars_eq_false_of_length {l : List Char} (h : l.length ≠ 11) :
    isVideoIdChars l = false := by
  unfold isVideoIdChars
  rw [decide_eq_false h]
  rfl

/-! ## Symbolic evaluation of the normalizer on the legitimate URL shapes -/

lemma trimChars_concat_id {a : List Char} {idc : List Char}
    (ha : a.all (fun c => !isWSChar c) = true) (h : idc.all isIdChar = true) :
    trimChars (a ++ idc) = a ++ idc := by
  apply trimChars_eq_self
  rw [List.all_append, Bool.and_eq_true]
  refine ⟨ha, ?_⟩
  rw [List.all_eq_true] at h ⊢
  intro c hc
  simpa using isIdChar_not_ws (h c hc)

lemma normalizeChars_via_url {l r : List Char} (ht : trimChars l = l)
    (hno : isVideoIdChars l = false) (hu : urlStep l = some r) :
    normalizeChars l = r := by
  simp only [normalizeChars, ht, hno, hu]
  simp

lemma splitPathQuery_watch {idc : List Char} (h : idc.all isIdChar = true) :
    splitPathQuery ("/watch?v=".data ++ idc) = ("/watch".data, some ("v=".data ++ idc)) := by
  simp only [splitPathQuery]
  rw [takeWhile_append_of_all _ (by decide),
    takeWhile_eq_self_of_all (all_ne_of_all_id h '#' (by decide))]
  rw [show splitFirst '?' ("/watch?v=".data ++ idc) = some ("/watch".data, "v=".data ++ idc)
    from rfl]

lemma parseURL_watch {idc : List Char} (h : idc.all isIdChar = true) :
    parseURL ("https://www.youtube.com/watch?v=".data ++ idc) =
      some ⟨"www.youtube.com".data, "/watch".data, some ("v=".data ++ idc)⟩ := by
  have step : parseURL ("https://www.youtube.com/watch?v=".data ++ idc) =
      some ⟨"www.youtube.com".data, (splitPathQuery ("/watch?v=".data ++ idc)).1,
        (splitPathQuery ("/watch?v=".data ++ idc)).2⟩ := rfl
  rw [step, splitPathQuery_watch h]

lemma getParamV_veq {idc : List Char} (h : idc.all isIdChar = true) :
    getParamV (some ("v=".data ++ idc)) = some idc := by
  have hsplit : splitAll '&' ("v=".data ++ idc) = ["v=".data ++ idc] := by
    apply splitAll_of_all_ne
    rw [List.all_append, Bool.and_eq_true]
    exact ⟨by decide, all_ne_of_all_id h '&' (by decide)⟩
  simp only [getParamV, hsplit]
  simp only [findV]
  rw [show splitFirst '=' ("v=".data ++ idc) = some (['v'], idc) from rfl]
  rfl

lemma urlStep_watch {idc : List Char} (hl : idc.length = 11)
    (h : idc.all isIdChar = true) :
    urlStep ("https://www.youtube.com/watch?v=".data ++ idc) = some idc := by
  simp only [urlStep, parseURL_watch h, getParamV_veq h]
  rw [if_pos]
  rw [isEmpty_eq_false_of_length hl]
  simp [isVideoIdChars, hl, h]

lemma splitPathQuery_noquery {a : List Char} {idc : List Char}
    (ha1 : a.all (fun c => !(c = '#')) = true)
    (ha2 : a.all (fun c => !(c = '?')) = true)
    (h : idc.all isIdChar = true) :
    splitPathQuery (a ++ idc) = (a ++ idc, none) := by
  have hall : (a ++ idc).all (fun c => !(c = '#')) = true := by
    rw [List.all_append, Bool.and_eq_true]
    exact ⟨ha1, all_ne_of_all_id h '#' (by decide)⟩
  simp only [splitPathQuery]
  rw [takeWhile_eq_self_of_all hall]
  rw [splitFirst_ne '?' (by
    rw [List.all_append, Bool.and_eq_true]
    exact ⟨ha2, all_ne_of_all_id h '?' (by decide)⟩)]

lemma pathSegments_single {idc : List Char} (hl : idc.length = 11)
    (h : idc.all isIdChar = true) :
    pathSegments ('/' :: idc) = [idc] := by
  unfold pathSegments
  rw [splitAll_cons, if_pos rfl, splitAll_of_all_ne '/' (all_ne_of_all_id h '/' (by decide))]
  simp [List.filter_cons, isEmpty_eq_false_of_length hl]

lemma pathSegments_pair {a : List Char} {idc : List Char}
    (ha : a.all (fun x => !(x = '/')) = true) (hne : a.isEmpty = false)
    (hl : idc.length = 11) (h : idc.all isIdChar = true) :
    pathSegments ('/' :: (a ++ ('/' :: idc))) = [a, idc] := by
  unfold pathSegments
  rw [splitAll_cons, if_pos rfl, splitAll_append_of_all_ne '/' _ ha,
    splitAll_cons, if_pos rfl, splitAll_of_all_ne '/' (all_ne_of_all_id h '/' (by decide))]
  simp [List.filter_cons, isEmpty_eq_false_of_length hl, hne, List.isEmpty_iff]

lemma parseURL_youtube (idc : List Char) :
    parseURL ("https://youtu.be/".data ++ idc) =
      some ⟨"youtu.be".data, (splitPathQuery ('/' :: idc)).1, (splitPathQuery ('/' :: idc)).2⟩ :=
  rfl

lemma urlStep_shortlink {idc : List Char} (hl : idc.length = 11)
    (h : idc.all isIdChar = true) :
    urlStep ("https://youtu.be/".data ++ idc) = some idc := by
  have hpq : splitPathQuery ('/' :: idc) = ('/' :: idc, none) := by
    have := splitPathQuery_noquery (a := ['/']) (by decide) (by decide) h
    simpa using this
  have hparse : parseURL ("https://youtu.be/".data ++ idc) =
      some ⟨"youtu.be".data, '/' :: idc, none⟩ := by
    rw [parseURL_youtube, hpq]
  simp only [urlStep, hparse]
  simp only [getParamV]
  simp only [hostBranch]
  rw [if_pos (by decide), pathSegments_single hl h, if_pos (by decide)]
  simp only [isVideoIdChars_iff.mpr ⟨hl, h⟩]
  simp

lemma urlStep_embed {idc : List Char} (hl : idc.length = 11)
    (h : idc.all isIdChar = true) :
    urlStep ("https://www.youtube.com/embed/".data ++ idc) = some idc := by
  have hpq : splitPathQuery ("/embed/".data ++ idc) = ("/embed/".data ++ idc, none) :=
    splitPathQuery_noquery (by decide) (by decide) h
  have hparse : parseURL ("https://www.youtube.com/embed/".data ++ idc) =
      some ⟨"www.youtube.com".data, "/embed/".data ++ idc, none⟩ := by
    have step : parseURL ("https://www.youtube.com/embed/".data ++ idc) =
        some ⟨"www.youtube.com".data, (splitPathQuery ("/embed/".data ++ idc)).1,
          (splitPathQuery ("/embed/".data ++ idc)).2⟩ := rfl
    rw [step, hpq]
  have hseg : pathSegments ("/embed/".data ++ idc) = ["embed".data, idc] := by
    have := pathSegments_pair (a := "embed".data) (by decide) (by decide) hl h
    exact this
  simp only [urlStep, hparse]
  simp only [getParamV]
  simp only [hostBranch]
  rw [if_pos (by decide), hseg, if_neg (by decide)]
  simp only [embedShortsCheck]
  rw [if_pos]
  rw [isVideoIdChars_iff.mpr ⟨hl, h⟩]
  decide

lemma urlStep_shorts {idc : List Char} (hl : idc.length = 11)
    (h : idc.all isIdChar = true) :
    urlStep ("https://www.youtube.com/shorts/".data ++ idc) = some idc := by
  have hpq : splitPathQuery ("/shorts/".data ++ idc) = ("/shorts/".data ++ idc, none) :=
    splitPathQuery_noquery (by decide) (by decide) h
  have hparse : parseURL ("https://www.youtube.com/shorts/".data ++ idc) =
      some ⟨"www.youtube.com".data, "/shorts/".data ++ idc, none⟩ := by
    have step : parseURL ("https://www.youtube.com/shorts/".data ++ idc) =
        some ⟨"www.youtube.com".data, (splitPathQuery ("/shorts/".data ++ idc)).1,
          (splitPathQuery ("/shorts/".data ++ idc)).2⟩ := rfl
    rw [step, hpq]
  have hseg : pathSegments ("/shorts/".data ++ idc) = ["shorts".data, idc] := by
    have := pathSegments_pair (a := "shorts".data) (by decide) (by decide) hl h
    exact this
  simp only [urlStep, hparse]
  simp only [getParamV]
  simp only [hostBranch]
  rw [if_pos (by decide), hseg, if_neg (by decide)]
  simp only [embedShortsCheck]
  rw [if_neg (by
    rw [isVideoIdChars_iff.mpr ⟨hl, h⟩]
    decide)]
  rw [if_pos]
  rw [isVideoIdChars_iff.mpr ⟨hl, h⟩]
  decide

lemma normalizeChars_of_id {idc : List Char} (hid : isVideoIdChars idc = true) :
    normalizeChars idc = idc := by
  have ht : trimChars idc = idc :=
    trimChars_of_all_id (isVideoIdChars_iff.mp hid).2
  simp only [normalizeChars, ht, hid]
  simp

lemma normalizeChars_concat {a : List Char} {idc : List Char}
    (ha : a.all (fun c => !isWSChar c) = true) (hlen : (a ++ idc).length ≠ 11)
    (h : idc.all isIdChar = true)
    (hu : urlStep (a ++ idc) = some idc) :
    normalizeChars (a ++ idc) = idc :=
  normalizeChars_via_url (trimChars_concat_id ha h)
    (isVideoIdChars_eq_false_of_length hlen) hu

/-! ## Range lemmas: every extraction path returns an id-shaped value -/

lemma startsWith_eq : ∀ {l p : List Char}, startsWith l p = true →
    l = p ++ l.drop p.length := by
  intro l p
  induction p generalizing l with
  | nil => intro _; rfl
  | cons b bs ih =>
    intro h
    cases l with
    | nil => exact absurd h (by simp [startsWith])
    | cons a as =>
      rw [startsWith, Bool.and_eq_true] at h
      have hab : a = b := by simpa using h.1
      subst hab
      have := ih h.2
      simpa using this

lemma take11Id_eq {l r : List Char} (h : take11Id l = some r) :
    r = l.take 11 ∧ isVideoIdChars r = true := by
  simp only [take11Id] at h
  split at h
  case isTrue hc =>
    cases h
    refine ⟨rfl, ?_⟩
    simpa [isVideoIdChars] using hc
  case isFalse => cases h

lemma queryFallback_decomp : ∀ {l r : List Char}, queryFallback l = some r →
    r.length = 11 ∧ r.all isIdChar = true ∧
      ∃ pre post c, (c = '?' ∨ c = '&') ∧
        l = pre ++ c :: 'v' :: '=' :: (r ++ post) := by
  intro l
  induction l with
  | nil => intro r h; cases h
  | cons c rest ih =>
    intro r h
    rw [queryFallback] at h
    split at h
    case isTrue hcond =>
      rw [Bool.and_eq_true] at hcond
      have hvr : rest = 'v' :: '=' :: rest.drop 2 := by
        have := startsWith_eq hcond.2
        simpa using this
      split at h
      case h_1 idv hidv =>
        cases h
        obtain ⟨hr, hvid⟩ := take11Id_eq hidv
        obtain ⟨hlen, hall⟩ := isVideoIdChars_iff.mp hvid
        refine ⟨hlen, hall, [], (rest.drop 2).drop 11, c, ?_, ?_⟩
        · simpa using hcond.1
        · have hsplit : rest.drop 2 = r ++ (rest.drop 2).drop 11 := by
            rw [hr]
            exact (List.take_append_drop 11 (rest.drop 2)).symm
          rw [List.nil_append, ← hsplit, ← hvr]
      case h_2 =>
        obtain ⟨h1, h2, pre, post, c', hc', he⟩ := ih h
        exact ⟨h1, h2, c :: pre, post, c', hc', by rw [he]; rfl⟩
    case isFalse =>
      obtain ⟨h1, h2, pre, post, c', hc', he⟩ := ih h
      exact ⟨h1, h2, c :: pre, post, c', hc', by rw [he]; rfl⟩

lemma embedFallback_decomp : ∀ {l r : List Char}, embedFallback l = some r →
    r.length = 11 ∧ r.all isIdChar = true ∧
      ∃ pre post, l = pre ++ "embed/".data ++ (r ++ post) := by
  intro l
  induction l with
  | nil => intro r h; cases h
  | cons c rest ih =>
    intro r h
    rw [embedFallback] at h
    split at h
    case isTrue hcond =>
      have hvr : c :: rest = "embed/".data ++ (c :: rest).drop 6 := by
        have := startsWith_eq hcond
        simpa using this
      split at h
      case h_1 idv hidv =>
        cases h
        obtain ⟨hr, hvid⟩ := take11Id_eq hidv
        obtain ⟨hlen, hall⟩ := isVideoIdChars_iff.mp hvid
        refine ⟨hlen, hall, [], ((c :: rest).drop 6).drop 11, ?_⟩
        have hsplit : (c :: rest).drop 6 = r ++ ((c :: rest).drop 6).drop 11 := by
          rw [hr]
          exact (List.take_append_drop 11 ((c :: rest).drop 6)).symm
        rw [List.nil_append, ← hsplit]
        exact hvr
      case h_2 =>
        obtain ⟨h1, h2, pre, post, he⟩ := ih h
        exact ⟨h1, h2, c :: pre, post, by rw [List.cons_append, List.cons_append, ← he]⟩
    case isFalse =>
      obtain ⟨h1, h2, pre, post, he⟩ := ih h
      exact ⟨h1, h2, c :: pre, post, by rw [List.cons_append, List.cons_append, ← he]⟩

lemma queryFallback_range {l r : List Char} (h : queryFallback l = some r) :
    isVideoIdChars r = true := by
  obtain ⟨h1, h2, _⟩ := queryFallback_decomp h
  exact isVideoIdChars_iff.mpr ⟨h1, h2⟩

lemma embedFallback_range {l r : List Char} (h : embedFallback l = some r) :
    isVideoIdChars r = true := by
  obtain ⟨h1, h2, _⟩ := embedFallback_decomp h
  exact isVideoIdChars_iff.mpr ⟨h1, h2⟩

lemma embedShortsCheck_range {segs : List (List Char)} {r : List Char}
    (h : embedShortsCheck segs = some r) : isVideoIdChars r = true := by
  unfold embedShortsCheck at h
  split at h
  case h_1 =>
    split at h
    case isTrue hc =>
      cases h
      rw [Bool.and_eq_true] at hc
      exact hc.2
    case isFalse =>
      split at h
      case isTrue hc =>
        cases h
        rw [Bool.and_eq_true] at hc
        exact hc.2
      case isFalse => cases h
  case h_2 => cases h

lemma hostBranch_range {u : URLParts} {r : List Char}
    (h : hostBranch u = some r) : isVideoIdChars r = true := by
  simp only [hostBranch] at h
  split at h
  case isTrue =>
    split at h
    case isTrue =>
      split at h
      case h_1 =>
        split at h
        case isTrue hc =>
          cases h
          exact hc
        case isFalse => exact embedShortsCheck_range h
      case h_2 => exact embedShortsCheck_range h
    case isFalse => exact embedShortsCheck_range h
  case isFalse => cases h

lemma urlStep_range {l r : List Char} (h : urlStep l = some r) :
    isVideoIdChars r = true := by
  unfold urlStep at h
  split at h
  case h_1 => cases h
  case h_2 url _ =>
    split at h
    case h_1 q _ =>
      split at h
      case isTrue hc =>
        cases h
        rw [Bool.and_eq_true] at hc
        exact hc.2
      case isFalse => exact hostBranch_range h
    case h_2 => exact hostBranch_range h

lemma normalizeChars_range (l : List Char) :
    isVideoIdChars (normalizeChars l) = true ∨ normalizeChars l = trimChars l := by
  simp only [normalizeChars]
  split
  case isTrue h => exact Or.inl h
  case isFalse =>
    cases hu : urlStep (trimChars l) with
    | some r => exact Or.inl (urlStep_range hu)
    | none =>
      simp only []
      cases hq : queryFallback (trimChars l) with
      | some r => exact Or.inl (queryFallback_range hq)
      | none =>
        simp only []
        cases he : embedFallback (trimChars l) with
        | some r => exact Or.inl (embedFallback_range he)
        | none => exact Or.inr rfl

/-! ## Lemmas about the bulk mutator loop -/

lemma addVideosLoop_cons (prov : Provider) (i : Nat) (cur : Option Nat)
    (v : String) (rest : List String) :
    addVideosLoop prov i cur (v :: rest) =
      ((stepResult prov i v cur).1 ::
          (addVideosLoop prov (i + 1) (stepResult prov i v cur).2 rest).1,
        .attempt i v cur ::
          ((if rest.isEmpty then [] else [.delay 250]) ++
            (addVideosLoop prov (i + 1) (stepResult prov i v cur).2 rest).2)) :=
  rfl

lemma stepResult_videoRef (prov : Provider) (i : Nat) (v : String)
    (cur : Option Nat) : ((stepResult prov i v cur).1).videoRef = v := by
  unfold stepResult
  cases prov i v cur <;> rfl

lemma addVideosLoop_map_videoRef (prov : Provider) :
    ∀ (ids : List String) (i : Nat) (cur : Option Nat),
      ((addVideosLoop prov i cur ids).1).map Outcome.videoRef = ids := by
  intro ids
  induction ids with
  | nil => intro i cur; rfl
  | cons v rest ih =>
    intro i cur
    rw [addVideosLoop_cons]
    simp only [List.map_cons, stepResult_videoRef, ih]

lemma addVideosLoop_length (prov : Provider) (ids : List String) (i : Nat)
    (cur : Option Nat) : ((addVideosLoop prov i cur ids).1).length = ids.length := by
  have := addVideosLoop_map_videoRef prov ids i cur
  calc ((addVideosLoop prov i cur ids).1).length
      = (((addVideosLoop prov i cur ids).1).map Outcome.videoRef).length :=
        (List.length_map _ _).symm
    _ = ids.length := by rw [this]

lemma traceShape_pacing_append (rest : List String) (tail : List BatchEvent) :
    traceShape ((if rest.isEmpty then ([] : List BatchEvent) else [.delay 250]) ++ tail) =
      (if rest.isEmpty then ([] : List Nat) else [250]) ++ traceShape tail := by
  cases rest <;> simp [traceShape]

lemma addVideosLoop_traceShape (prov : Provider) :
    ∀ (ids : List String) (i : Nat) (cur : Option Nat),
      traceShape (addVideosLoop prov i cur ids).2 = expectedShape ids.length := by
  intro ids
  induction ids with
  | nil => intro i cur; rfl
  | cons v rest ih =>
    intro i cur
    rw [addVideosLoop_cons]
    simp only [traceShape, List.map_cons, List.map_append]
    have hsh := ih (i + 1) (stepResult prov i v cur).2
    simp only [traceShape] at hsh
    rw [hsh]
    cases rest with
    | nil => rfl
    | cons w rs => simp [expectedShape]

lemma addVideosLoop_delayLengths (prov : Provider) :
    ∀ (ids : List String) (i : Nat) (cur : Option Nat),
      delayLengths (addVideosLoop prov i cur ids).2 =
        List.replicate (ids.length - 1) 250 := by
  intro ids
  induction ids with
  | nil => intro i cur; rfl
  | cons v rest ih =>
    intro i cur
    rw [addVideosLoop_cons]
    simp only [delayLengths, List.filterMap_cons, List.filterMap_append]
    have hdl := ih (i + 1) (stepResult prov i v cur).2
    simp only [delayLengths] at hdl
    rw [hdl]
    cases rest with
    | nil => rfl
    | cons w rs => simp [List.replicate_succ]

lemma attemptPositions_cons (i : Nat) (v : String) (cur : Option Nat)
    (rest : List String) (tail : List BatchEvent) :
    attemptPositions
        (.attempt i v cur ::
          ((if rest.isEmpty then ([] : List BatchEvent) else [.delay 250]) ++ tail)) =
      cur :: attemptPositions tail := by
  cases rest <;> simp [attemptPositions]

lemma addVideosLoop_positions (prov : Provider) :
    ∀ (ids : List String) (i p k : Nat), k < ids.length →
      (attemptPositions (addVideosLoop prov i (some p) ids).2)[k]? =
        some (some (p + successCount (((addVideosLoop prov i (some p) ids).1).take k))) := by
  intro ids
  induction ids with
  | nil =>
    intro i p k hk
    simp at hk
  | cons v rest ih =>
    intro i p k hk
    rw [addVideosLoop_cons]
    simp only [attemptPositions_cons]
    cases k with
    | zero => simp [successCount]
    | succ k' =>
      have hk' : k' < rest.length := by simpa using hk
      simp only [List.getElem?_cons_succ, List.take_succ_cons]
      cases hp : prov i v (some p) with
      | ok item =>
        have hstep : stepResult prov i v (some p) =
            (Outcome.added v item, some (p + 1)) := by
          simp [stepResult, hp]
        rw [hstep]
        have hih := ih (i + 1) (p + 1) k' hk'
        rw [hih]
        simp only [successCount, List.filter_cons, Outcome.isSuccess]
        simp
        omega
      | error msg =>
        have hstep : stepResult prov i v (some p) =
            (Outcome.failed v msg, some p) := by
          simp [stepResult, hp]
        rw [hstep]
        have hih := ih (i + 1) p k' hk'
        rw [hih]
        simp only [successCount, List.filter_cons, Outcome.isSuccess]
        simp

lemma validateAll_length : ∀ {raw ids : List String},
    validateAll raw = .ok ids → ids.length = raw.length := by
  intro raw
  induction raw with
  | nil =>
    intro ids h
    cases h
    rfl
  | cons s rest ih =>
    intro ids h
    rw [validateAll] at h
    split at h
    case h_1 => cases h
    case h_2 v hv =>
      split at h
      case h_1 => cases h
      case h_2 vs hvs =>
        cases h
        simp [ih hvs]

/-! ## The claims -/

/-- C1 (corrected): in the bulk-add loop with `startPosition = p`, the
position passed to the k-th insert attempt is `p` plus the number of
prior successful attempts — `currentPosition += 1` sits inside the `try`
after the insert, so a failed attempt does not consume a position slot. -/
theorem addVideos_position_counts_successes : ∀ (provider : Provider)
    (videoIds : List String) (p k : Nat), k < videoIds.length →
    (attemptPositions (addVideosHandler provider videoIds (some p)).2)[k]? =
      some (some (p + successCount
        (((addVideosHandler provider videoIds (some p)).1).take k))) := by
  intro provider videoIds p k hk
  exact addVideosLoop_positions provider videoIds 0 p k hk

/-- Witness for the C1 theorem: with the stub failing on the second call
and `startPosition = 5`, the third attempt (k = 2) is issued at
`5 + successCount(first two outcomes)`. -/
theorem addVideos_position_counts_successes_witness :
    (attemptPositions (addVideosHandler stubFailSecond
        ["aaaaaaaaaaa", "bbbbbbbbbbb", "ccccccccccc"] (some 5)).2)[2]? =
      some (some (5 + successCount
        (((addVideosHandler stubFailSecond
          ["aaaaaaaaaaa", "bbbbbbbbbbb", "ccccccccccc"] (some 5)).1).take 2))) :=
  addVideos_position_counts_successes stubFailSecond
    ["aaaaaaaaaaa", "bbbbbbbbbbb", "ccccccccccc"] 5 2 (by decide)

/-- C1 counterexample: with `startPosition = 5` and three references where
the second insert fails, the attempted positions are 5, 6, 6 — not the
5, 6, 7 the claim states, because the failed attempt does not advance the
counter. -/
theorem addVideos_position_claim_false :
    attemptPositions (addVideosHandler stubFailSecond
        ["aaaaaaaaaaa", "bbbbbbbbbbb", "ccccccccccc"] (some 5)).2 =
      [some 5, some 6, some 6] ∧
    attemptPositions (addVideosHandler stubFailSecond
        ["aaaaaaaaaaa", "bbbbbbbbbbb", "ccccccccccc"] (some 5)).2 ≠
      [some 5, some 6, some 7] := by
  decide

/-- C2 (corrected): when every reference passes schema validation, the
tool call succeeds and yields exactly one outcome entry per input
reference, in input order; schema validation of the array is
all-or-nothing, so this only holds for fully valid batches. -/
theorem addVideos_batch_length : ∀ (provider : Provider) (playlistId : String)
    (videoIds : List String) (startPosition : Option Nat) (ids : List String),
    1 ≤ playlistId.length →
    videoIdsSchema videoIds = .ok ids →
    addVideosToPlaylistTool provider playlistId videoIds startPosition =
      .ok (addVideosHandler provider ids startPosition) ∧
    ((addVideosHandler provider ids startPosition).1).length = videoIds.length ∧
    ((addVideosHandler provider ids startPosition).1).map Outcome.videoRef = ids := by
  intro provider playlistId videoIds startPosition ids hpl hv
  refine ⟨?_, ?_, addVideosLoop_map_videoRef provider ids 0 startPosition⟩
  · unfold addVideosToPlaylistTool
    rw [if_neg (by omega), hv]
  · have h1 : ((addVideosHandler provider ids startPosition).1).length = ids.length :=
      addVideosLoop_length provider ids 0 startPosition
    have h2 : ids.length = videoIds.length := by
      unfold videoIdsSchema at hv
      split at hv
      case isTrue => cases hv
      case isFalse => exact validateAll_length hv
    rw [h1, h2]

/-- Witness for the C2 theorem at a concrete one-element valid batch. -/
theorem addVideos_batch_length_witness :
    addVideosToPlaylistTool stubAlwaysOk "PL" ["dQw4w9WgXcQ"] none =
      .ok (addVideosHandler stubAlwaysOk ["dQw4w9WgXcQ"] none) ∧
    ((addVideosHandler stubAlwaysOk ["dQw4w9WgXcQ"] none).1).length =
      (["dQw4w9WgXcQ"] : List String).length ∧
    ((addVideosHandler stubAlwaysOk ["dQw4w9WgXcQ"] none).1).map Outcome.videoRef =
      ["dQw4w9WgXcQ"] :=
  addVideos_batch_length stubAlwaysOk "PL" ["dQw4w9WgXcQ"] none ["dQw4w9WgXcQ"]
    (by decide) (by rfl)

/-- C2 counterexample: a two-element batch whose second reference is
unrecognized is rejected whole by the array schema — the call errors and
produces no outcome entries at all, rather than two entries. -/
theorem addVideos_mixed_batch_no_entries :
    addVideosToPlaylistTool stubAlwaysOk "PL" ["dQw4w9WgXcQ", "not a url at all"] none =
      .error "Provide a valid YouTube video ID or URL." ∧
    (addVideosToPlaylistTool stubAlwaysOk "PL"
      ["dQw4w9WgXcQ", "not a url at all"] none).isOk = false :=
  ⟨by rfl, by decide⟩

/-- C3 (corrected): on the concrete three-element input, the unrecognized
third reference is rejected by schema validation before any provider
call, but the rejection fails the whole tool call — no outcome entries
are produced for the first two references.  The first two references do
normalize to the claimed ids, and a batch of just those two succeeds with
those ids. -/
theorem addVideos_concrete_scenario :
    videoIdSchema "dQw4w9WgXcQ" = .ok "dQw4w9WgXcQ" ∧
    videoIdSchema "https://youtu.be/abc12345678" = .ok "abc12345678" ∧
    videoIdSchema "not a url at all" = .error "Provide a valid YouTube video ID or URL." ∧
    addVideosToPlaylistTool stubAlwaysOk "PL"
      ["dQw4w9WgXcQ", "https://youtu.be/abc12345678", "not a url at all"] none =
      .error "Provide a valid YouTube video ID or URL." ∧
    addVideosToPlaylistTool stubAlwaysOk "PL"
      ["dQw4w9WgXcQ", "https://youtu.be/abc12345678"] none =
      .ok ([Outcome.added "dQw4w9WgXcQ" ⟨"it", "PL", 0, "dQw4w9WgXcQ", "T"⟩,
            Outcome.added "abc12345678" ⟨"it", "PL", 0, "abc12345678", "T"⟩],
           [BatchEvent.attempt 0 "dQw4w9WgXcQ" none, BatchEvent.delay 250,
            BatchEvent.attempt 1 "abc12345678" none]) :=
  ⟨by rfl, by rfl, by rfl, by rfl, by rfl⟩

/-- C3 counterexample: on the claimed input the tool call is rejected as
a whole — it returns a validation error, so outcome[0] and outcome[1]
are never produced, contradicting the claimed per-item processing. -/
theorem addVideos_concrete_scenario_claim_false :
    addVideosToPlaylistTool stubAlwaysOk "PL"
      ["dQw4w9WgXcQ", "https://youtu.be/abc12345678", "not a url at all"] none =
      .error "Provide a valid YouTube video ID or URL." ∧
    (addVideosToPlaylistTool stubAlwaysOk "PL"
      ["dQw4w9WgXcQ", "https://youtu.be/abc12345678", "not a url at all"] none).isOk =
      false :=
  ⟨by rfl, by decide⟩

/-- C4 (confirmed): an insert failure is caught and recorded as a failed
outcome entry carrying the provider's message, and the loop continues
with the remaining references — every reference of every batch produces
exactly one entry, and with a stub failing only on item 2 of 3, items 1
and 3 still succeed. -/
theorem addVideos_failure_isolation :
    (∀ (provider : Provider) (videoIds : List String) (startPosition : Option Nat),
      ((addVideosHandler provider videoIds startPosition).1).map Outcome.videoRef =
        videoIds) ∧
    (∀ (provider : Provider) (i : Nat) (cur : Option Nat) (v : String)
      (rest : List String) (msg : String),
      provider i v cur = .error msg →
        (addVideosLoop provider i cur (v :: rest)).1 =
          Outcome.failed v msg :: (addVideosLoop provider (i + 1) cur rest).1) ∧
    (addVideosHandler stubFailSecond
        ["aaaaaaaaaaa", "bbbbbbbbbbb", "ccccccccccc"] none).1 =
      [Outcome.added "aaaaaaaaaaa" ⟨"it", "PL", 0, "aaaaaaaaaaa", "T"⟩,
       Outcome.failed "bbbbbbbbbbb" "boom",
       Outcome.added "ccccccccccc" ⟨"it", "PL", 0, "ccccccccccc", "T"⟩] := by
  refine ⟨fun provider ids sp => addVideosLoop_map_videoRef provider ids 0 sp,
    ?_, by decide⟩
  intro provider i cur v rest msg h
  rw [addVideosLoop_cons]
  have hstep : stepResult provider i v cur = (Outcome.failed v msg, cur) := by
    simp [stepResult, h]
  rw [hstep]

/-- Witness for the C4 theorem: the failing branch applied at the stub's
failing call records the message and continues with the tail. -/
theorem addVideos_failure_isolation_witness :
    (addVideosLoop stubFailSecond 1 none ["bbbbbbbbbbb", "ccccccccccc"]).1 =
      Outcome.failed "bbbbbbbbbbb" "boom" ::
        (addVideosLoop stubFailSecond 2 none ["ccccccccccc"]).1 :=
  addVideos_failure_isolation.2.1 stubFailSecond 1 none "bbbbbbbbbbb"
    ["ccccccccccc"] "boom" (by rfl)

/-- C9 (confirmed): the trace of a batch of N references has the rhythm
attempt, 250 ms delay, attempt, ..., attempt — exactly `N - 1` delays of
250 ms, one between each pair of consecutive attempts and none after the
last, regardless of the success or failure of any attempt. -/
theorem addVideos_pacing : ∀ (provider : Provider) (videoIds : List String)
    (startPosition : Option Nat),
    traceShape (addVideosHandler provider videoIds startPosition).2 =
      expectedShape videoIds.length ∧
    delayLengths (addVideosHandler provider videoIds startPosition).2 =
      List.replicate (videoIds.length - 1) 250 :=
  fun provider videoIds startPosition =>
    ⟨addVideosLoop_traceShape provider videoIds 0 startPosition,
     addVideosLoop_delayLengths provider videoIds 0 startPosition⟩

/-- C6 (confirmed): for every string matching the 11-character id
pattern, the normalizer returns exactly that id on each legitimate input
shape: bare id, watch URL, short-link URL, embed URL and shorts URL. -/
theorem normalize_roundtrip : ∀ ids : String, isVideoId ids = true →
    normalizeVideoId ids = ids ∧
    normalizeVideoId ("https://www.youtube.com/watch?v=" ++ ids) = ids ∧
    normalizeVideoId ("https://youtu.be/" ++ ids) = ids ∧
    normalizeVideoId ("https://www.youtube.com/embed/" ++ ids) = ids ∧
    normalizeVideoId ("https://www.youtube.com/shorts/" ++ ids) = ids := by
  intro ids h
  have hl : ids.data.length = 11 := (isVideoIdChars_iff.mp h).1
  have ha : ids.data.all isIdChar = true := (isVideoIdChars_iff.mp h).2
  refine ⟨?_, ?_, ?_, ?_, ?_⟩
  · show (⟨normalizeChars ids.data⟩ : String) = ids
    rw [normalizeChars_of_id (isVideoIdChars_iff.mpr ⟨hl, ha⟩)]
  · show (⟨normalizeChars ("https://www.youtube.com/watch?v=" ++ ids).data⟩ : String) = ids
    rw [String.data_append]
    rw [normalizeChars_concat (by decide)
      (by rw [List.length_append, hl]; decide) ha (urlStep_watch hl ha)]
  · show (⟨normalizeChars ("https://youtu.be/" ++ ids).data⟩ : String) = ids
    rw [String.data_append]
    rw [normalizeChars_concat (by decide)
      (by rw [List.length_append, hl]; decide) ha (urlStep_shortlink hl ha)]
  · show (⟨normalizeChars ("https://www.youtube.com/embed/" ++ ids).data⟩ : String) = ids
    rw [String.data_append]
    rw [normalizeChars_concat (by decide)
      (by rw [List.length_append, hl]; decide) ha (urlStep_embed hl ha)]
  · show (⟨normalizeChars ("https://www.youtube.com/shorts/" ++ ids).data⟩ : String) = ids
    rw [String.data_append]
    rw [normalizeChars_concat (by decide)
      (by rw [List.length_append, hl]; decide) ha (urlStep_shorts hl ha)]

/-- Witness for the C6 theorem at the id dQw4w9WgXcQ. -/
theorem normalize_roundtrip_witness :
    normalizeVideoId "dQw4w9WgXcQ" = "dQw4w9WgXcQ" ∧
    normalizeVideoId ("https://www.youtube.com/watch?v=" ++ "dQw4w9WgXcQ") = "dQw4w9WgXcQ" ∧
    normalizeVideoId ("https://youtu.be/" ++ "dQw4w9WgXcQ") = "dQw4w9WgXcQ" ∧
    normalizeVideoId ("https://www.youtube.com/embed/" ++ "dQw4w9WgXcQ") = "dQw4w9WgXcQ" ∧
    normalizeVideoId ("https://www.youtube.com/shorts/" ++ "dQw4w9WgXcQ") = "dQw4w9WgXcQ" :=
  normalize_roundtrip "dQw4w9WgXcQ" (by decide)

/-- C7 (confirmed): the normalizer is idempotent on every input it
recognizes — whenever its output matches the 11-character pattern,
normalizing again returns the same output. -/
theorem normalize_idempotent : ∀ x : String,
    isVideoId (normalizeVideoId x) = true →
    normalizeVideoId (normalizeVideoId x) = normalizeVideoId x := by
  intro x h
  have h' : isVideoIdChars (normalizeChars x.data) = true := h
  show (⟨normalizeChars (normalizeChars x.data)⟩ : String) = normalizeVideoId x
  rw [normalizeChars_of_id h']
  rfl

/-- Witness for the C7 theorem at a short-link URL input. -/
theorem normalize_idempotent_witness :
    normalizeVideoId (normalizeVideoId "https://youtu.be/dQw4w9WgXcQ") =
      normalizeVideoId "https://youtu.be/dQw4w9WgXcQ" :=
  normalize_idempotent "https://youtu.be/dQw4w9WgXcQ" (by decide)

/-- C8 (confirmed): the normalizer is total — for every input it either
returns a value matching the 11-character pattern or returns the
whitespace-trimmed input unchanged (never raising), and on the concrete
non-video URL it returns the input unchanged. -/
theorem normalize_total_or_trim :
    (∀ s : String,
      isVideoId (normalizeVideoId s) = true ∨ normalizeVideoId s = jsTrim s) ∧
    normalizeVideoId "https://example.com/not-a-video" =
      "https://example.com/not-a-video" := by
  constructor
  · intro s
    rcases normalizeChars_range s.data with h | h
    · exact Or.inl h
    · right
      show (⟨normalizeChars s.data⟩ : String) = (⟨trimChars s.data⟩ : String)
      rw [h]
  · decide

/-- C5 (corrected): every capture of the fallback regexes is exactly 11
id-alphabet characters, and the query capture is anchored on a `?` or `&`
immediately preceding `v=` — but the regex has no boundary after the
capture, so a longer id-like run IS accepted through its 11-character
prefix (see the counterexample). -/
theorem fallback_anchored_11 :
    (∀ (l r : List Char), queryFallback l = some r →
      r.length = 11 ∧ r.all isIdChar = true ∧
        ∃ pre post c, (c = '?' ∨ c = '&') ∧
          l = pre ++ c :: 'v' :: '=' :: (r ++ post)) ∧
    (∀ (l r : List Char), embedFallback l = some r →
      r.length = 11 ∧ r.all isIdChar = true ∧
        ∃ pre post, l = pre ++ "embed/".data ++ (r ++ post)) :=
  ⟨fun _ _ h => queryFallback_decomp h, fun _ _ h => embedFallback_decomp h⟩

/-- Witness for the C5 theorem at a concrete anchored query string. -/
theorem fallback_anchored_11_witness :
    "dQw4w9WgXcQ".data.length = 11 ∧ "dQw4w9WgXcQ".data.all isIdChar = true ∧
      ∃ pre post c, (c = '?' ∨ c = '&') ∧
        "?v=dQw4w9WgXcQ".data = pre ++ c :: 'v' :: '=' :: ("dQw4w9WgXcQ".data ++ post) :=
  fallback_anchored_11.1 "?v=dQw4w9WgXcQ".data "dQw4w9WgXcQ".data (by rfl)

/-- C5 counterexample: a 12-character id-like run after `v=` is accepted
through its 11-character prefix — the regex has no boundary assertion
after the capture group, contradicting the claim. -/
theorem fallback_accepts_prefix_of_longer_run :
    queryFallback "?v=abcdefghijkl".data = some "abcdefghijk".data ∧
    normalizeVideoId "?v=abcdefghijkl" = "abcdefghijk" :=
  ⟨by decide, by decide⟩

/-- C10 (confirmed): the value sent to the provider by the four listing
methods is `clampMaxResults maxResults`, an integer in 1..50 — 10 when
the argument is absent, zero or NaN, and otherwise the floor clamped
below at 1 and above at 50. -/
theorem clampMaxResults_range :
    (∀ m : Option JSNum, 1 ≤ clampMaxResults m ∧ clampMaxResults m ≤ 50) ∧
    clampMaxResults none = 10 ∧
    clampMaxResults (some .nan) = 10 ∧
    clampMaxResults (some (.val 0)) = 10 ∧
    (∀ q : ℚ, q ≠ 0 → clampMaxResults (some (.val q)) = min (max 1 ⌊q⌋) 50) ∧
    (∀ m : Option JSNum,
      searchVideosMaxResults m = clampMaxResults m ∧
      listMyPlaylistsMaxResults m = clampMaxResults m ∧
      listPlaylistItemsMaxResults m = clampMaxResults m ∧
      listRelatedVideosMaxResults m = clampMaxResults m) := by
  refine ⟨?_, rfl, rfl, ?_, ?_, fun m => ⟨rfl, rfl, rfl, rfl⟩⟩
  · intro m
    match m with
    | none => exact ⟨by decide, by decide⟩
    | some .nan => exact ⟨by decide, by decide⟩
    | some (.val q) =>
      simp only [clampMaxResults]
      split
      · exact ⟨by norm_num, by norm_num⟩
      · exact ⟨le_min (le_max_left _ _) (by norm_num), min_le_right _ _⟩
  · simp [clampMaxResults]
  · intro q hq
    simp [clampMaxResults, hq]

/-- Witness for the C10 theorem at the nonzero argument 25. -/
theorem clampMaxResults_range_witness :
    clampMaxResults (some (.val 25)) = min (max 1 ⌊(25 : ℚ)⌋) 50 :=
  clampMaxResults_range.2.2.2.2.1 25 (by decide)

end YT
